import Mathlib

/-!
Shallow embedding of the alarm-scheduling core of `spotify-alarm`
(`src/alarm.rs`, `src/state.rs`, `src/web/routes.rs`), together with
theorems settling the specification claims about it.

Conventions of the embedding:
* Rust `String` is Lean `String`; `Vec<T>` is `List T`; `u32`/`usize`/`u16`
  are `Nat` (with explicit `< 2^32` checks where Rust parsing can overflow);
  `Result<T, E>` is `Except E T`; `Option<T>` is `Option T`.
* `chrono::Weekday` is the inductive `Weekday`; `format!("{:?}", weekday)`
  (derived `Debug`) is `Weekday.debugStr`, yielding the three-letter
  constructor name exactly as chrono's derived `Debug` does.
* `chrono::NaiveTime` built by `from_hms_opt(h, m, 0)` is represented by the
  pair `(hour, minute)`; `from_hms_opt` succeeds exactly when `h < 24` and
  `m < 60` (seconds are always 0 here).
* External effects are parameters: the outcome of `spotify::play` is a
  boolean per tick (`Tick.playOk`), the outcome of `state.try_write()` is
  `Tick.lockOk`, and the outcome of `save_config` is a boolean argument
  (`saveOk`) to each route handler.
-/

deriving instance DecidableEq for Except

namespace SpotifyAlarm

/-- `chrono::Weekday`. -/
inductive Weekday where
  | mon | tue | wed | thu | fri | sat | sun
deriving DecidableEq, Repr

/-- `format!("{:?}", weekday)` for `chrono::Weekday` (derived `Debug`):
the three-letter constructor name. -/
def Weekday.debugStr : Weekday → String
  | .mon => "Mon"
  | .tue => "Tue"
  | .wed => "Wed"
  | .thu => "Thu"
  | .fri => "Fri"
  | .sat => "Sat"
  | .sun => "Sun"

/-- `u8::to_ascii_lowercase` lifted to characters: lowercases ASCII
`A`–`Z` only, as Rust's ASCII case-folding does. -/
def asciiLower (c : Char) : Char :=
  if 'A' ≤ c ∧ c ≤ 'Z' then Char.ofNat (c.toNat + 32) else c

/-- Rust `str::eq_ignore_ascii_case`. -/
def eqIgnoreAsciiCase (s t : String) : Bool :=
  s.data.map asciiLower == t.data.map asciiLower

/-- Rust `str::split(sep)` for a single separator character, on the
character list of the string: splits into the (possibly empty) runs
between occurrences of `sep`.  `"".split(sep)` yields one empty part, and
a trailing separator yields a trailing empty part, as in Rust. -/
def splitChar (sep : Char) : List Char → List (List Char)
  | [] => [[]]
  | c :: rest =>
    if c = sep then [] :: splitChar sep rest
    else
      match splitChar sep rest with
      | [] => [[c]]
      | g :: gs => (c :: g) :: gs

/-- Rust `str::parse::<u32>()`: an optional leading `+`, then one or more
ASCII digits; fails on anything else and on values that overflow `u32`.
(Overflow during accumulation is equivalent to the final value reaching
`2^32`, since appending further digits only increases the value.) -/
def parseU32 (s : List Char) : Option Nat :=
  let ds := match s with
    | '+' :: rest => rest
    | cs => cs
  if ds.isEmpty then none
  else if ds.all Char.isDigit then
    let v := ds.foldl (fun acc c => acc * 10 + (c.toNat - 48)) 0
    if v < 4294967296 then some v else none
  else none

/-- `Alarm` (`src/alarm.rs`). -/
structure Alarm where
  name : String
  time : String
  days : List String
  enabled : Bool
deriving DecidableEq, Repr

/-- `WebConfig` (`src/alarm.rs`). -/
structure WebConfig where
  enabled : Bool
  bind_addr : String
  port : Nat
  password_hash : Option String
deriving DecidableEq, Repr

/-- `SpotifyConfig` (`src/alarm.rs`). -/
structure SpotifyConfig where
  audio_device : String
deriving DecidableEq, Repr

/-- `AlarmConfig` (`src/alarm.rs`). -/
structure AlarmConfig where
  alarms : List Alarm
  web : WebConfig
  spotify : SpotifyConfig
deriving DecidableEq, Repr

/-- `Alarm::parse_time` (`src/alarm.rs:79-94`): split the `time` string on
`:`, require exactly two parts, parse each as `u32`, then build the time
via `NaiveTime::from_hms_opt(hour, minute, 0)`, which succeeds exactly for
hours below 24 and minutes below 60. -/
def Alarm.parse_time (a : Alarm) : Except String (Nat × Nat) :=
  match splitChar ':' a.time.data with
  | [hs, ms] =>
    match parseU32 hs with
    | none => .error ("Invalid hour: " ++ String.mk hs)
    | some hour =>
      match parseU32 ms with
      | none => .error ("Invalid minute: " ++ String.mk ms)
      | some minute =>
        if hour < 24 ∧ minute < 60 then .ok (hour, minute)
        else .error ("Invalid time: " ++ toString hour ++ ":" ++ toString minute)
  | _ => .error ("Invalid time format: " ++ a.time)

/-- `Alarm::should_play_on` (`src/alarm.rs:97-106`): an empty `days` list
plays every day; otherwise some entry must equal (ASCII
case-insensitively) `format!("{:?}", weekday)` or its first three bytes. -/
def Alarm.should_play_on (a : Alarm) (weekday : Weekday) : Bool :=
  if a.days.isEmpty then true
  else
    let weekday_str := weekday.debugStr
    a.days.any fun d =>
      eqIgnoreAsciiCase d weekday_str ||
      eqIgnoreAsciiCase d (String.mk (weekday_str.data.take 3))

/-! ## Scheduler loop (`run_scheduler`, `src/alarm.rs:147-248`) -/

/-- The per-alarm guard sequence of the scan in `run_scheduler`
(`src/alarm.rs:195-218`): skip disabled alarms, skip alarms not playing on
today's weekday, skip alarms whose time fails to parse (with a logged
diagnostic), and otherwise fire exactly when the current hour and minute
both equal the parsed ones. -/
def isDue (a : Alarm) (w : Weekday) (hour minute : Nat) : Bool :=
  a.enabled &&
  a.should_play_on w &&
  match a.parse_time with
  | .ok t => hour == t.1 && minute == t.2
  | .error _ => false

/-- The `for alarm in &alarms` loop of one tick (`src/alarm.rs:195-243`):
the playback invocations made during the tick, in order. The `break` after
a fire means the scan stops at the first due alarm. -/
def scanTick (alarms : List Alarm) (w : Weekday) (hour minute : Nat) :
    List Alarm :=
  match alarms with
  | [] => []
  | a :: rest =>
    if isDue a w hour minute then [a] else scanTick rest w hour minute

/-- Everything one iteration of the scheduler loop reads from outside:
the clock (`Local::now()` split into weekday/hour/minute), the snapshot of
shared state (`alarms`, `audio_device`), the outcome of `spotify::play`
if it is invoked (`playOk`), and whether `state.try_write()` for the
last-trigger record succeeds (`lockOk`). -/
structure Tick where
  weekday : Weekday
  hour : Nat
  minute : Nat
  alarms : List Alarm
  audio_device : String
  playOk : Bool
  lockOk : Bool
deriving DecidableEq, Repr

/-- The scheduler-local state of `run_scheduler`: the debounce marker
`last_played_hour_minute`, plus the shared `last_alarm_trigger` record the
loop writes on success (kept here as the fired alarm's name). -/
structure SchedState where
  last_played_hour_minute : Option (Nat × Nat)
  last_alarm_trigger : Option String
deriving DecidableEq, Repr

/-- One iteration of the `loop` in `run_scheduler` (`src/alarm.rs:173-247`):
if the current `(hour, minute)` equals `last_played_hour_minute`, sleep and
retry; otherwise scan the alarms, and on the first due alarm invoke
playback, record the trigger on success (best-effort `try_write`), set the
marker to the current `(hour, minute)` — after the playback call, whether
it succeeded or failed — and break. Returns the new state and the playback
invocation made this tick, if any. -/
def schedStep (s : SchedState) (t : Tick) : SchedState × Option Alarm :=
  let hm := (t.hour, t.minute)
  if s.last_played_hour_minute = some hm then (s, none)
  else
    match scanTick t.alarms t.weekday t.hour t.minute with
    | [] => (s, none)
    | a :: _ =>
      let s1 :=
        if t.playOk ∧ t.lockOk then
          { s with last_alarm_trigger := some a.name }
        else s
      ({ s1 with last_played_hour_minute := some hm }, some a)

/-- Run the scheduler loop over a list of ticks, collecting each tick's
playback invocation (if any) and the final state. -/
def schedRun (s : SchedState) : List Tick → List (Option Alarm) × SchedState
  | [] => ([], s)
  | t :: ts =>
    let r := schedStep s t
    let rest := schedRun r.1 ts
    (r.2 :: rest.1, rest.2)

/-- Number of playback invocations in a run's tick results. -/
def countFires (rs : List (Option Alarm)) : Nat :=
  rs.countP Option.isSome

/-! ## Shared state and its mutators (`src/state.rs`) -/

/-- `AppState` (`src/state.rs:9-15`); the librespot `session`/`spirc`
handles are opaque playback resources not touched by any mutator and are
omitted. The timestamp in `last_alarm_trigger` is abstracted to a `Nat`. -/
structure AppState where
  config : AlarmConfig
  last_alarm_trigger : Option (String × Nat)
deriving DecidableEq, Repr

/-- `AppState::get_alarm` (`src/state.rs:38-40`). -/
def AppState.get_alarm (s : AppState) (index : Nat) : Option Alarm :=
  s.config.alarms.get? index

/-- `AppState::update_alarm` (`src/state.rs:43-49`). -/
def AppState.update_alarm (s : AppState) (index : Nat) (alarm : Alarm) :
    Except String AppState :=
  if index ≥ s.config.alarms.length then
    .error ("Index " ++ toString index ++ " out of bounds")
  else
    .ok { s with config :=
      { s.config with alarms := s.config.alarms.set index alarm } }

/-- `AppState::add_alarm` (`src/state.rs:52-54`). -/
def AppState.add_alarm (s : AppState) (alarm : Alarm) : AppState :=
  { s with config :=
    { s.config with alarms := s.config.alarms ++ [alarm] } }

/-- `AppState::delete_alarm` (`src/state.rs:57-63`). -/
def AppState.delete_alarm (s : AppState) (index : Nat) :
    Except String AppState :=
  if index ≥ s.config.alarms.length then
    .error ("Index " ++ toString index ++ " out of bounds")
  else
    .ok { s with config :=
      { s.config with alarms := s.config.alarms.eraseIdx index } }

/-- `AppState::toggle_alarm` (`src/state.rs:66-72`): flip `enabled` at the
index and return the alarm as it stands after the flip. -/
def AppState.toggle_alarm (s : AppState) (index : Nat) :
    Except String (Alarm × AppState) :=
  if h : index ≥ s.config.alarms.length then
    .error ("Index " ++ toString index ++ " out of bounds")
  else
    let old := s.config.alarms.get ⟨index, Nat.lt_of_not_le h⟩
    let na := { old with enabled := !old.enabled }
    .ok (na, { s with config :=
      { s.config with alarms := s.config.alarms.set index na } })

/-! ## Route handlers (`src/web/routes.rs`)

Each handler is a function of the current `AppState`, its inputs, and a
boolean `saveOk` giving the outcome of `save_config` should it be
attempted.  The outcome records the resulting state, the HTTP status code
sent, and whether a persistence write was attempted. -/

/-- Result of a mutating route handler: the `AppState` after the request,
the HTTP status code of the response, and whether `save_config` was
invoked. -/
structure RouteOutcome where
  state : AppState
  status : Nat
  saveAttempted : Bool
deriving DecidableEq, Repr

namespace Routes

/-- `create_alarm` (`src/web/routes.rs:47-72`): validate the time format
(400 on failure, before taking the write lock), append the alarm, then
persist (500 on persistence failure, with the in-memory mutation kept). -/
def create_alarm (s : AppState) (alarm : Alarm) (saveOk : Bool) :
    RouteOutcome :=
  match alarm.parse_time with
  | .error _ => ⟨s, 400, false⟩
  | .ok _ =>
    let s1 := s.add_alarm alarm
    if saveOk then ⟨s1, 201, true⟩ else ⟨s1, 500, true⟩

/-- `update_alarm` (`src/web/routes.rs:75-107`): validate the time format
(400), then replace by index (404 when out of bounds), then persist
(500 on persistence failure, mutation kept). -/
def update_alarm (s : AppState) (index : Nat) (alarm : Alarm)
    (saveOk : Bool) : RouteOutcome :=
  match alarm.parse_time with
  | .error _ => ⟨s, 400, false⟩
  | .ok _ =>
    match s.update_alarm index alarm with
    | .error _ => ⟨s, 404, false⟩
    | .ok s1 =>
      if saveOk then ⟨s1, 200, true⟩ else ⟨s1, 500, true⟩

/-- `delete_alarm` (`src/web/routes.rs:110-133`): remove by index (404 when
out of bounds), then persist (500 on persistence failure, mutation kept). -/
def delete_alarm (s : AppState) (index : Nat) (saveOk : Bool) :
    RouteOutcome :=
  match s.delete_alarm index with
  | .error _ => ⟨s, 404, false⟩
  | .ok s1 =>
    if saveOk then ⟨s1, 204, true⟩ else ⟨s1, 500, true⟩

/-- `toggle_alarm` (`src/web/routes.rs:136-162`): flip `enabled` by index
(404 when out of bounds), then persist (500 on persistence failure,
mutation kept). -/
def toggle_alarm (s : AppState) (index : Nat) (saveOk : Bool) :
    RouteOutcome :=
  match s.toggle_alarm index with
  | .error _ => ⟨s, 404, false⟩
  | .ok (_, s1) =>
    if saveOk then ⟨s1, 200, true⟩ else ⟨s1, 500, true⟩

end Routes

/-! ## Spec-side definitions

These follow the specification's words, for comparison with the
definitions embedded from the source. -/

/-- Full English weekday name, as the spec's examples use ("Monday"). -/
def Weekday.fullName : Weekday → String
  | .mon => "Monday"
  | .tue => "Tuesday"
  | .wed => "Wednesday"
  | .thu => "Thursday"
  | .fri => "Friday"
  | .sat => "Saturday"
  | .sun => "Sunday"

/-- The trigger predicate as the spec states it: enabled, weekday in
`days` (case-insensitively, accepting either the full weekday name or its
standard three-letter abbreviation) or `days` empty, and parsed hour and
minute exactly equal to now's. -/
def specIsDue (a : Alarm) (w : Weekday) (hour minute : Nat) : Bool :=
  a.enabled &&
  (a.days.isEmpty ||
   a.days.any fun d =>
     eqIgnoreAsciiCase d w.fullName || eqIgnoreAsciiCase d w.debugStr) &&
  match a.parse_time with
  | .ok p => hour == p.1 && minute == p.2
  | .error _ => false

/-- A string "parses as an unsigned integer" in the spec's sense: an
optional `+` followed by one or more digits, with no overflow bound. -/
def specNatStr (s : List Char) : Option Nat :=
  let ds := match s with
    | '+' :: rest => rest
    | cs => cs
  if ds.isEmpty then none
  else if ds.all Char.isDigit then
    some (ds.foldl (fun acc c => acc * 10 + (c.toNat - 48)) 0)
  else none

/-- Valid time strings as claim C10 describes them: exactly two
`:`-separated parts, each parsing as an unsigned integer, hour at most 23
and minute at most 59. -/
def specValidTime (t : String) : Bool :=
  match splitChar ':' t.data with
  | [hs, ms] =>
    match specNatStr hs, specNatStr ms with
    | some h, some m => h ≤ 23 && m ≤ 59
    | _, _ => false
  | _ => false

/-! ## The day-match of `should_play_on`, characterised -/

/-- The first three characters of a weekday's `Debug` string are the whole
string: chrono's derived `Debug` already prints the three-letter
abbreviation, so the `&weekday_str[..3]` comparison in `should_play_on`
coincides with the full comparison. -/
theorem take3_debugStr (w : Weekday) :
    String.mk (w.debugStr.data.take 3) = w.debugStr := by
  cases w <;> rfl

/-- `should_play_on` holds exactly when `days` is empty or some entry
matches the three-letter abbreviation, ASCII case-insensitively. -/
theorem should_play_on_iff (a : Alarm) (w : Weekday) :
    a.should_play_on w = true ↔
      (a.days = [] ∨ ∃ d ∈ a.days, eqIgnoreAsciiCase d w.debugStr = true) := by
  simp only [Alarm.should_play_on, take3_debugStr, List.isEmpty_iff,
    List.any_eq_true, Bool.or_eq_true, or_self_iff]
  by_cases hd : a.days = []
  · simp [hd]
  · simp [hd]

/-- `isDue`, characterised. -/
theorem isDue_iff (a : Alarm) (w : Weekday) (hour minute : Nat) :
    isDue a w hour minute = true ↔
      (a.enabled = true ∧
       (a.days = [] ∨ ∃ d ∈ a.days, eqIgnoreAsciiCase d w.debugStr = true) ∧
       ∃ p, a.parse_time = .ok p ∧ p.1 = hour ∧ p.2 = minute) := by
  unfold isDue
  rw [Bool.and_eq_true, Bool.and_eq_true, should_play_on_iff]
  cases hp : a.parse_time with
  | ok p =>
    simp only [hp, beq_iff_eq, Bool.and_eq_true, Except.ok.injEq]
    constructor
    · rintro ⟨⟨he, hd⟩, h1, h2⟩
      exact ⟨he, hd, p, rfl, h1.symm, h2.symm⟩
    · rintro ⟨he, hd, q, hq, h1, h2⟩
      cases hq
      exact ⟨⟨he, hd⟩, h1.symm, h2.symm⟩
  | error e =>
    simp only [hp]
    constructor
    · rintro ⟨_, h⟩
      exact absurd h (by simp)
    · rintro ⟨_, _, q, hq, _⟩
      cases hq

/-! ## Claim C2 -/

/-- C2, counterexample: the alarm `{name: "A", time: "07:00", days:
["Monday"], enabled: true}` on a Monday at 07:00 is due according to the
spec's predicate (full weekday names accepted) but not according to the
code: `should_play_on` compares entries against `format!("{:?}",
weekday)`, which is already the three-letter abbreviation, so "Monday"
never matches. -/
theorem claim_C2_counterexample :
    specIsDue ⟨"A", "07:00", ["Monday"], true⟩ .mon 7 0 = true ∧
    isDue ⟨"A", "07:00", ["Monday"], true⟩ .mon 7 0 = false := by
  decide

/-- C2, amended: the trigger predicate holds iff the alarm is enabled,
`now`'s weekday's standard three-letter abbreviation (matched
ASCII-case-insensitively) appears in `days` or `days` is empty, and the
alarm's parsed hour and minute exactly equal `now`'s hour and minute.
Full weekday names such as "Monday" are not accepted. -/
theorem claim_C2_amended (a : Alarm) (w : Weekday) (hour minute : Nat) :
    isDue a w hour minute = true ↔
      (a.enabled = true ∧
       (a.days = [] ∨ ∃ d ∈ a.days, eqIgnoreAsciiCase d w.debugStr = true) ∧
       ∃ p, a.parse_time = .ok p ∧ p.1 = hour ∧ p.2 = minute) :=
  isDue_iff a w hour minute

/-! ## Claim C10 -/

/-- `parseU32` is the spec's unbounded unsigned-integer parse followed by
the `u32` overflow check. -/
theorem parseU32_eq_specNatStr (s : List Char) :
    parseU32 s =
      (specNatStr s).bind fun v =>
        if v < 4294967296 then some v else none := by
  simp only [parseU32, specNatStr]
  generalize (match s with | '+' :: rest => rest | cs => cs) = ds
  by_cases h1 : ds.isEmpty <;> by_cases h2 : ds.all Char.isDigit <;>
    simp [h1, h2]

/-- C10: `Alarm::parse_time` accepts exactly the strings with two
`:`-separated parts, each parsing as an unsigned integer (optionally
`+`-prefixed, not necessarily zero-padded), with hour at most 23 and
minute at most 59; everything else is rejected with an error. -/
theorem claim_C10 (a : Alarm) :
    a.parse_time.isOk = true ↔ specValidTime a.time = true := by
  unfold Alarm.parse_time specValidTime
  cases hp : splitChar ':' a.time.data with
  | nil => simp [Except.isOk, Except.toBool]
  | cons hs rest =>
    cases rest with
    | nil => simp [Except.isOk, Except.toBool]
    | cons ms rest2 =>
      cases rest2 with
      | cons x xs => simp [Except.isOk, Except.toBool]
      | nil =>
        dsimp only
        rw [parseU32_eq_specNatStr hs, parseU32_eq_specNatStr ms]
        cases hh : specNatStr hs with
        | none => simp [Except.isOk, Except.toBool]
        | some hv =>
          cases hm : specNatStr ms with
          | none =>
            by_cases hb : hv < 4294967296 <;>
              simp [hb, Except.isOk, Except.toBool]
          | some mv =>
            by_cases hb : hv < 4294967296
            · by_cases mb : mv < 4294967296
              · by_cases hr : hv < 24 ∧ mv < 60 <;>
                  simp [hb, mb, hr, Except.isOk, Except.toBool] <;> omega
              · simp [hb, mb, Except.isOk, Except.toBool]
                omega
            · simp [hb, Except.isOk, Except.toBool]
              omega

/-! ## Scheduler lemmas -/

/-- A tick whose `(hour, minute)` equals the marker does nothing. -/
theorem schedStep_skip (s : SchedState) (t : Tick)
    (h : s.last_played_hour_minute = some (t.hour, t.minute)) :
    schedStep s t = (s, none) := by
  simp [schedStep, h]

/-- A tick that is evaluated but finds no due alarm does nothing. -/
theorem schedStep_nofire (s : SchedState) (t : Tick)
    (h : s.last_played_hour_minute ≠ some (t.hour, t.minute))
    (hscan : scanTick t.alarms t.weekday t.hour t.minute = []) :
    schedStep s t = (s, none) := by
  simp [schedStep, h, hscan]

/-- A tick that is evaluated and finds a due alarm fires the first one and
sets the marker to the current `(hour, minute)` (whatever `playOk` is). -/
theorem schedStep_fire (s : SchedState) (t : Tick) (a : Alarm)
    (rest : List Alarm)
    (h : s.last_played_hour_minute ≠ some (t.hour, t.minute))
    (hscan : scanTick t.alarms t.weekday t.hour t.minute = a :: rest) :
    (schedStep s t).2 = some a ∧
    (schedStep s t).1.last_played_hour_minute = some (t.hour, t.minute) := by
  simp only [schedStep, h, if_false, hscan]
  by_cases hp : t.playOk ∧ t.lockOk <;> simp [hp]

/-- The scheduler loop processes every tick: no tick result is dropped,
whatever the playback outcomes. -/
theorem schedRun_length (s : SchedState) (ts : List Tick) :
    (schedRun s ts).1.length = ts.length := by
  induction ts generalizing s with
  | nil => rfl
  | cons t ts ih => simp [schedRun, ih]

/-- Once the marker holds `(h, m)`, a run of ticks all at `(h, m)` fires
nothing and leaves the state unchanged. -/
theorem schedRun_marked (h m : Nat) (ts : List Tick)
    (hts : ∀ t ∈ ts, t.hour = h ∧ t.minute = m) (s : SchedState)
    (hs : s.last_played_hour_minute = some (h, m)) :
    countFires (schedRun s ts).1 = 0 ∧ (schedRun s ts).2 = s := by
  induction ts with
  | nil => simp [schedRun, countFires]
  | cons t ts ih =>
    obtain ⟨hh, hm2⟩ := hts t (List.mem_cons_self t ts)
    have hsk : s.last_played_hour_minute = some (t.hour, t.minute) := by
      rw [hh, hm2]; exact hs
    have hstep := schedStep_skip s t hsk
    have hrest := ih fun t' ht' => hts t' (List.mem_cons_of_mem t ht')
    simp [schedRun, hstep, countFires] at hrest ⊢
    exact hrest

/-! ## Claim C1 -/

/-- C1: within one wall-clock minute — every tick carrying the same
`(hour, minute)`, with arbitrary per-tick alarm snapshots, weekdays,
playback outcomes and lock outcomes — the scheduler makes at most one
playback invocation, from any starting state. -/
theorem claim_C1 (s : SchedState) (ts : List Tick) (h m : Nat)
    (hts : ∀ t ∈ ts, t.hour = h ∧ t.minute = m) :
    countFires (schedRun s ts).1 ≤ 1 := by
  induction ts generalizing s with
  | nil => simp [schedRun, countFires]
  | cons t ts ih =>
    obtain ⟨hh, hm2⟩ := hts t (List.mem_cons_self t ts)
    have hrest : ∀ t' ∈ ts, t'.hour = h ∧ t'.minute = m :=
      fun t' ht' => hts t' (List.mem_cons_of_mem t ht')
    by_cases hsk : s.last_played_hour_minute = some (t.hour, t.minute)
    · have hstep := schedStep_skip s t hsk
      simp only [schedRun, hstep, countFires, List.countP_cons,
        Option.isSome_none, Bool.false_eq_true, if_false, Nat.add_zero]
      exact ih s hrest
    · cases hscan : scanTick t.alarms t.weekday t.hour t.minute with
      | nil =>
        have hstep := schedStep_nofire s t hsk hscan
        simp only [schedRun, hstep, countFires, List.countP_cons,
          Option.isSome_none, Bool.false_eq_true, if_false, Nat.add_zero]
        exact ih s hrest
      | cons a rest =>
        obtain ⟨hfire, hmark⟩ := schedStep_fire s t a rest hsk hscan
        have hmark' : (schedStep s t).1.last_played_hour_minute =
            some (h, m) := by rw [hmark, hh, hm2]
        obtain ⟨hzero, _⟩ :=
          schedRun_marked h m ts hrest (schedStep s t).1 hmark'
        simp only [schedRun, countFires, List.countP_cons, hfire] at hzero ⊢
        simp [hzero]

/-- C1 witness: two ticks in the same minute, each with the same due
alarm, produce at most one invocation. -/
theorem claim_C1_witness :
    (∀ t ∈ [(⟨.mon, 7, 0, [⟨"Wake", "07:00", ["Mon"], true⟩], "default",
              true, true⟩ : Tick),
            ⟨.mon, 7, 0, [⟨"Wake", "07:00", ["Mon"], true⟩], "default",
              true, true⟩],
      t.hour = 7 ∧ t.minute = 0) ∧
    countFires (schedRun ⟨none, none⟩
      [⟨.mon, 7, 0, [⟨"Wake", "07:00", ["Mon"], true⟩], "default",
         true, true⟩,
       ⟨.mon, 7, 0, [⟨"Wake", "07:00", ["Mon"], true⟩], "default",
         true, true⟩]).1 ≤ 1 :=
  ⟨by decide, claim_C1 ⟨none, none⟩ _ 7 0 (by decide)⟩

/-! ## Claim C4 -/

/-- C4, counterexample: a tick at 07:00 with an empty alarm list and no
marker set differs from the marker, yet after the tick the marker is still
unset — the code updates `last_played_hour_minute` only after a fire, not
at the start of evaluation, so on minutes in which no alarm fires the
marker is not updated (and the list is rescanned every second). -/
theorem claim_C4_counterexample :
    (⟨none, none⟩ : SchedState).last_played_hour_minute ≠ some (7, 0) ∧
    (schedStep ⟨none, none⟩
        ⟨.mon, 7, 0, [], "default", true, true⟩).1.last_played_hour_minute
      ≠ some (7, 0) := by
  decide

/-- C4, amended: on a tick whose `(hour, minute)` differs from the marker,
the alarm list is scanned; the marker is set to the current
`(hour, minute)` exactly when some alarm fires on that tick — after the
playback call, regardless of its success or failure — and on ticks where
no alarm fires the whole state is left unchanged. -/
theorem claim_C4_amended (s : SchedState) (t : Tick)
    (h : s.last_played_hour_minute ≠ some (t.hour, t.minute)) :
    ((schedStep s t).2.isSome = true →
      (schedStep s t).1.last_played_hour_minute =
        some (t.hour, t.minute)) ∧
    ((schedStep s t).2 = none → (schedStep s t).1 = s) := by
  cases hscan : scanTick t.alarms t.weekday t.hour t.minute with
  | nil =>
    have hstep := schedStep_nofire s t h hscan
    simp [hstep]
  | cons a rest =>
    obtain ⟨hfire, hmark⟩ := schedStep_fire s t a rest h hscan
    refine ⟨fun _ => hmark, fun hnone => ?_⟩
    rw [hfire] at hnone
    cases hnone

/-- C4 amended witness: a tick with a due alarm sets the marker; its
conclusion applied at a concrete fire. -/
theorem claim_C4_amended_witness :
    (⟨none, none⟩ : SchedState).last_played_hour_minute ≠ some (7, 0) ∧
    (((schedStep ⟨none, none⟩
        ⟨.mon, 7, 0, [⟨"Wake", "07:00", ["Mon"], true⟩], "default",
          false, true⟩).2.isSome = true →
      (schedStep ⟨none, none⟩
        ⟨.mon, 7, 0, [⟨"Wake", "07:00", ["Mon"], true⟩], "default",
          false, true⟩).1.last_played_hour_minute = some (7, 0)) ∧
     ((schedStep ⟨none, none⟩
        ⟨.mon, 7, 0, [⟨"Wake", "07:00", ["Mon"], true⟩], "default",
          false, true⟩).2 = none →
      (schedStep ⟨none, none⟩
        ⟨.mon, 7, 0, [⟨"Wake", "07:00", ["Mon"], true⟩], "default",
          false, true⟩).1 = ⟨none, none⟩)) :=
  ⟨by decide,
   claim_C4_amended ⟨none, none⟩
     ⟨.mon, 7, 0, [⟨"Wake", "07:00", ["Mon"], true⟩], "default",
       false, true⟩ (by decide)⟩

/-! ## Claim C5 -/

/-- C5: the code contradicts the claim's final part — "at the next minute
at which the alarm is due another playback attempt is made" — at this
input.  A single always-enabled alarm at 07:00 with empty `days` is due
every day at 07:00; its playback fails on Monday 07:00.  The alarm is due
at the Tuesday 07:00 tick (first conjunct), yet the three-tick run makes
only the one failed Monday attempt (second conjunct): the marker set at
the failed fire holds only the date-less pair `(7, 0)`, the evaluated
Monday 07:01 tick fires nothing and so never updates it, and the Tuesday
07:00 tick — the alarm's next due minute — is skipped by the marker
comparison before the alarm list is even scanned. -/
theorem claim_C5_code_bug :
    isDue ⟨"Wake", "07:00", [], true⟩ .tue 7 0 = true ∧
    (schedRun ⟨none, none⟩
      [⟨.mon, 7, 0, [⟨"Wake", "07:00", [], true⟩], "default",
          false, true⟩,
       ⟨.mon, 7, 1, [⟨"Wake", "07:00", [], true⟩], "default",
          true, true⟩,
       ⟨.tue, 7, 0, [⟨"Wake", "07:00", [], true⟩], "default",
          true, true⟩]).1 =
      [some ⟨"Wake", "07:00", [], true⟩, none, none] := by
  decide

/-! ## Claim C3 -/

/-- If some alarm in the list is due, the tick's scan makes exactly one
playback invocation: the due alarm of smallest index, every alarm before
it being not due. -/
theorem scanTick_of_due (alarms : List Alarm) (w : Weekday) (h m : Nat)
    (i : Nat) (ai : Alarm) (hi : alarms[i]? = some ai)
    (hdi : isDue ai w h m = true) :
    ∃ (k : Nat) (a : Alarm), alarms[k]? = some a ∧
      isDue a w h m = true ∧
      scanTick alarms w h m = [a] ∧
      ∀ (l : Nat) (b : Alarm), l < k → alarms[l]? = some b →
        isDue b w h m = false := by
  induction alarms generalizing i with
  | nil => cases hi
  | cons a0 rest ih =>
    by_cases h0 : isDue a0 w h m = true
    · refine ⟨0, a0, by simp, h0, by simp [scanTick, h0], ?_⟩
      intro l b hl
      omega
    · have h0' : isDue a0 w h m = false := by
        revert h0; cases isDue a0 w h m <;> simp
      cases i with
      | zero =>
        simp only [List.getElem?_cons_zero, Option.some.injEq] at hi
        rw [← hi] at hdi
        rw [hdi] at h0'
        cases h0'
      | succ i2 =>
        have hi' : rest[i2]? = some ai := by simpa using hi
        obtain ⟨k, a, hk, hd, hscan, hmin⟩ := ih i2 hi'
        refine ⟨k + 1, a, by simpa using hk, hd,
          by simp [scanTick, h0', hscan], ?_⟩
        intro l b hl hlb
        cases l with
        | zero =>
          simp only [List.getElem?_cons_zero, Option.some.injEq] at hlb
          rw [← hlb]
          exact h0'
        | succ l2 =>
          exact hmin l2 b (by omega) (by simpa using hlb)

/-- C3: when at least two alarms are simultaneously due at an evaluated
tick, the tick makes exactly one playback invocation — the scan produces
the singleton list holding the due alarm of smallest index, every alarm
before it being not due, and that alarm is the tick's invocation. -/
theorem claim_C3 (s : SchedState) (t : Tick) (i j : Nat) (ai aj : Alarm)
    (hij : i < j)
    (hi : t.alarms[i]? = some ai) (hj : t.alarms[j]? = some aj)
    (hdi : isDue ai t.weekday t.hour t.minute = true)
    (hdj : isDue aj t.weekday t.hour t.minute = true)
    (hmark : s.last_played_hour_minute ≠ some (t.hour, t.minute)) :
    ∃ (k : Nat) (a : Alarm), t.alarms[k]? = some a ∧
      isDue a t.weekday t.hour t.minute = true ∧
      scanTick t.alarms t.weekday t.hour t.minute = [a] ∧
      (schedStep s t).2 = some a ∧
      ∀ (l : Nat) (b : Alarm), l < k → t.alarms[l]? = some b →
        isDue b t.weekday t.hour t.minute = false := by
  obtain ⟨k, a, hk, hd, hscan, hmin⟩ :=
    scanTick_of_due t.alarms t.weekday t.hour t.minute i ai hi hdi
  exact ⟨k, a, hk, hd, hscan,
    (schedStep_fire s t a [] hmark (by rw [hscan])).1, hmin⟩

/-- C3 witness: a list with a disabled alarm first and two due alarms
after it; the earlier due alarm (index 1) is the unique invocation. -/
theorem claim_C3_witness :
    (1 : Nat) < 2 ∧
    ([⟨"Off", "07:00", [], false⟩, ⟨"Wake", "07:00", ["Mon"], true⟩,
      ⟨"Backup", "7:0", [], true⟩] :
        List Alarm)[1]? = some ⟨"Wake", "07:00", ["Mon"], true⟩ ∧
    ([⟨"Off", "07:00", [], false⟩, ⟨"Wake", "07:00", ["Mon"], true⟩,
      ⟨"Backup", "7:0", [], true⟩] :
        List Alarm)[2]? = some ⟨"Backup", "7:0", [], true⟩ ∧
    ∃ (k : Nat) (a : Alarm),
      ((⟨.mon, 7, 0,
          [⟨"Off", "07:00", [], false⟩, ⟨"Wake", "07:00", ["Mon"], true⟩,
           ⟨"Backup", "7:0", [], true⟩], "default", true, true⟩ :
            Tick)).alarms[k]? = some a ∧
      isDue a .mon 7 0 = true ∧
      scanTick [⟨"Off", "07:00", [], false⟩,
        ⟨"Wake", "07:00", ["Mon"], true⟩,
        ⟨"Backup", "7:0", [], true⟩] .mon 7 0 = [a] ∧
      (schedStep ⟨none, none⟩
        ⟨.mon, 7, 0,
          [⟨"Off", "07:00", [], false⟩, ⟨"Wake", "07:00", ["Mon"], true⟩,
           ⟨"Backup", "7:0", [], true⟩], "default", true, true⟩).2
        = some a ∧
      ∀ (l : Nat) (b : Alarm), l < k →
        ((⟨.mon, 7, 0,
            [⟨"Off", "07:00", [], false⟩,
             ⟨"Wake", "07:00", ["Mon"], true⟩,
             ⟨"Backup", "7:0", [], true⟩], "default", true, true⟩ :
              Tick)).alarms[l]? = some b →
        isDue b .mon 7 0 = false :=
  ⟨by decide, by decide, by decide,
   claim_C3 ⟨none, none⟩
     ⟨.mon, 7, 0,
       [⟨"Off", "07:00", [], false⟩, ⟨"Wake", "07:00", ["Mon"], true⟩,
        ⟨"Backup", "7:0", [], true⟩], "default", true, true⟩
     1 2 ⟨"Wake", "07:00", ["Mon"], true⟩ ⟨"Backup", "7:0", [], true⟩
     (by decide) (by decide) (by decide) (by decide) (by decide)
     (by decide)⟩

/-! ## Claim C9 -/

/-- C9: toggling alarm `k` at a valid index succeeds, negates exactly that
alarm's `enabled` field, and leaves its `name`, `time` and `days`, every
other alarm, the list length, the other `Config` settings, and the
last-trigger record unchanged. -/
theorem claim_C9 (s : AppState) (k : Nat)
    (hk : k < s.config.alarms.length) :
    ∃ (a : Alarm) (s2 : AppState),
      s.toggle_alarm k = .ok (a, s2) ∧
      s2.config.alarms.length = s.config.alarms.length ∧
      s2.config.alarms[k]? = some a ∧
      (∀ old : Alarm, s.config.alarms[k]? = some old →
        a.enabled = !old.enabled ∧ a.name = old.name ∧
        a.time = old.time ∧ a.days = old.days) ∧
      (∀ j : Nat, j ≠ k → s2.config.alarms[j]? = s.config.alarms[j]?) ∧
      s2.config.web = s.config.web ∧
      s2.config.spotify = s.config.spotify ∧
      s2.last_alarm_trigger = s.last_alarm_trigger := by
  unfold AppState.toggle_alarm
  rw [dif_neg (by omega : ¬ k ≥ s.config.alarms.length)]
  refine ⟨_, _, rfl, by simp [List.length_set], ?_, ?_, ?_, rfl, rfl, rfl⟩
  · simp [List.getElem?_set, hk]
  · intro old hold
    rw [List.getElem?_eq_getElem hk] at hold
    have hold2 : s.config.alarms.get ⟨k, hk⟩ =
        s.config.alarms[k] := List.get_eq_getElem _ _
    injection hold with hold1
    rw [hold2, hold1]
    exact ⟨rfl, rfl, rfl, rfl⟩
  · intro j hj
    exact List.getElem?_set_ne (fun hkj => hj hkj.symm)

/-- C9 witness: toggling index 0 of a one-alarm config. -/
theorem claim_C9_witness :
    (0 : Nat) <
      (⟨⟨[⟨"Wake", "07:00", ["Mon"], true⟩],
         ⟨false, "127.0.0.1", 8080, none⟩, ⟨"default"⟩⟩, none⟩ :
        AppState).config.alarms.length ∧
    ∃ (a : Alarm) (s2 : AppState),
      (⟨⟨[⟨"Wake", "07:00", ["Mon"], true⟩],
         ⟨false, "127.0.0.1", 8080, none⟩, ⟨"default"⟩⟩, none⟩ :
        AppState).toggle_alarm 0 = .ok (a, s2) ∧ s2.config.alarms[0]? = some a :=
  ⟨by decide, by
    obtain ⟨a, s2, h1, _, h3, _⟩ :=
      claim_C9 ⟨⟨[⟨"Wake", "07:00", ["Mon"], true⟩],
        ⟨false, "127.0.0.1", 8080, none⟩, ⟨"default"⟩⟩, none⟩ 0 (by decide)
    exact ⟨a, s2, h1, h3⟩⟩

/-! ## Claim C6 -/

/-- C6: a create or update with an invalid time string returns 400, and a
delete, toggle, or valid-time update with an index at or beyond the list
length returns 404; in every such case the state is returned unchanged and
no persistence write is attempted. -/
theorem claim_C6 (s : AppState) (a : Alarm) (i : Nat) (saveOk : Bool)
    (hbad : a.parse_time.isOk = false)
    (hoob : s.config.alarms.length ≤ i) :
    Routes.create_alarm s a saveOk = ⟨s, 400, false⟩ ∧
    (∀ j : Nat, Routes.update_alarm s j a saveOk = ⟨s, 400, false⟩) ∧
    Routes.delete_alarm s i saveOk = ⟨s, 404, false⟩ ∧
    Routes.toggle_alarm s i saveOk = ⟨s, 404, false⟩ ∧
    (∀ a2 : Alarm, a2.parse_time.isOk = true →
      Routes.update_alarm s i a2 saveOk = ⟨s, 404, false⟩) := by
  refine ⟨?_, ?_, ?_, ?_, ?_⟩
  · cases hp : a.parse_time with
    | ok p => rw [hp] at hbad; cases hbad
    | error e => simp [Routes.create_alarm, hp]
  · intro j
    cases hp : a.parse_time with
    | ok p => rw [hp] at hbad; cases hbad
    | error e => simp [Routes.update_alarm, hp]
  · simp [Routes.delete_alarm, AppState.delete_alarm, hoob]
  · simp [Routes.toggle_alarm, AppState.toggle_alarm, hoob]
  · intro a2 hok2
    cases hp : a2.parse_time with
    | ok p =>
      simp [Routes.update_alarm, hp, AppState.update_alarm, hoob]
    | error e => rw [hp] at hok2; cases hok2

/-- C6 witness: time "25:00" against a one-alarm config, index 5. -/
theorem claim_C6_witness :
    (Alarm.parse_time ⟨"Bad", "25:00", [], true⟩).isOk = false ∧
    (⟨⟨[⟨"Wake", "07:00", ["Mon"], true⟩],
       ⟨false, "127.0.0.1", 8080, none⟩, ⟨"default"⟩⟩, none⟩ :
      AppState).config.alarms.length ≤ 5 ∧
    (Routes.create_alarm
      ⟨⟨[⟨"Wake", "07:00", ["Mon"], true⟩],
        ⟨false, "127.0.0.1", 8080, none⟩, ⟨"default"⟩⟩, none⟩
      ⟨"Bad", "25:00", [], true⟩ true =
     ⟨⟨⟨[⟨"Wake", "07:00", ["Mon"], true⟩],
        ⟨false, "127.0.0.1", 8080, none⟩, ⟨"default"⟩⟩, none⟩, 400, false⟩) ∧
    (Routes.delete_alarm
      ⟨⟨[⟨"Wake", "07:00", ["Mon"], true⟩],
        ⟨false, "127.0.0.1", 8080, none⟩, ⟨"default"⟩⟩, none⟩ 5 true =
     ⟨⟨⟨[⟨"Wake", "07:00", ["Mon"], true⟩],
        ⟨false, "127.0.0.1", 8080, none⟩, ⟨"default"⟩⟩, none⟩, 404, false⟩) :=
  ⟨by decide, by decide,
   (claim_C6 ⟨⟨[⟨"Wake", "07:00", ["Mon"], true⟩],
       ⟨false, "127.0.0.1", 8080, none⟩, ⟨"default"⟩⟩, none⟩
     ⟨"Bad", "25:00", [], true⟩ 5 true (by decide) (by decide)).1,
   (claim_C6 ⟨⟨[⟨"Wake", "07:00", ["Mon"], true⟩],
       ⟨false, "127.0.0.1", 8080, none⟩, ⟨"default"⟩⟩, none⟩
     ⟨"Bad", "25:00", [], true⟩ 5 true (by decide) (by decide)).2.2.1⟩

/-! ## Claim C7 -/

/-- C7: when input validation and the index check succeed but the
persistence write fails, every mutating endpoint returns 500 with the
in-memory mutation applied — the returned state is the mutated one, not
rolled back. -/
theorem claim_C7 (s : AppState) (a : Alarm) (i : Nat)
    (hok : a.parse_time.isOk = true)
    (hi : i < s.config.alarms.length) :
    (Routes.create_alarm s a false = ⟨s.add_alarm a, 500, true⟩ ∧
      (s.add_alarm a).config.alarms = s.config.alarms ++ [a]) ∧
    (∃ s2 : AppState, s.update_alarm i a = .ok s2 ∧
      s2.config.alarms = s.config.alarms.set i a ∧
      Routes.update_alarm s i a false = ⟨s2, 500, true⟩) ∧
    (∃ s2 : AppState, s.delete_alarm i = .ok s2 ∧
      s2.config.alarms = s.config.alarms.eraseIdx i ∧
      Routes.delete_alarm s i false = ⟨s2, 500, true⟩) ∧
    (∃ (p : Alarm × AppState), s.toggle_alarm i = .ok p ∧
      p.2.config.alarms = s.config.alarms.set i p.1 ∧
      Routes.toggle_alarm s i false = ⟨p.2, 500, true⟩) := by
  obtain ⟨q, hq⟩ : ∃ q, a.parse_time = .ok q := by
    cases hp : a.parse_time with
    | ok q => exact ⟨q, rfl⟩
    | error e => rw [hp] at hok; cases hok
  refine ⟨⟨?_, rfl⟩, ?_, ?_, ?_⟩
  · simp [Routes.create_alarm, hq]
  · refine ⟨{ s with config :=
      { s.config with alarms := s.config.alarms.set i a } }, ?_, rfl, ?_⟩
    · simp [AppState.update_alarm, Nat.not_le.mpr hi]
    · simp [Routes.update_alarm, hq, AppState.update_alarm,
        Nat.not_le.mpr hi]
  · refine ⟨{ s with config :=
      { s.config with alarms := s.config.alarms.eraseIdx i } }, ?_, rfl, ?_⟩
    · simp [AppState.delete_alarm, Nat.not_le.mpr hi]
    · simp [Routes.delete_alarm, AppState.delete_alarm, Nat.not_le.mpr hi]
  · have hlt : ¬ i ≥ s.config.alarms.length := by omega
    obtain ⟨⟨a1, s2⟩, hp2⟩ : ∃ p, s.toggle_alarm i = .ok p := by
      unfold AppState.toggle_alarm
      rw [dif_neg hlt]
      exact ⟨_, rfl⟩
    have hp3 := hp2
    unfold AppState.toggle_alarm at hp3
    rw [dif_neg hlt] at hp3
    injection hp3 with hp4
    injection hp4 with hpa hps
    refine ⟨(a1, s2), hp2, ?_, ?_⟩
    · rw [← hps, ← hpa]
    · unfold Routes.toggle_alarm
      rw [hp2]
      rfl

/-- C7 witness: valid alarm, index 0, persistence failing. -/
theorem claim_C7_witness :
    (Alarm.parse_time ⟨"New", "08:30", [], true⟩).isOk = true ∧
    (0 : Nat) <
      (⟨⟨[⟨"Wake", "07:00", ["Mon"], true⟩],
         ⟨false, "127.0.0.1", 8080, none⟩, ⟨"default"⟩⟩, none⟩ :
        AppState).config.alarms.length ∧
    Routes.create_alarm
      ⟨⟨[⟨"Wake", "07:00", ["Mon"], true⟩],
        ⟨false, "127.0.0.1", 8080, none⟩, ⟨"default"⟩⟩, none⟩
      ⟨"New", "08:30", [], true⟩ false =
      ⟨AppState.add_alarm
        ⟨⟨[⟨"Wake", "07:00", ["Mon"], true⟩],
          ⟨false, "127.0.0.1", 8080, none⟩, ⟨"default"⟩⟩, none⟩
        ⟨"New", "08:30", [], true⟩, 500, true⟩ :=
  ⟨by decide, by decide,
   (claim_C7 ⟨⟨[⟨"Wake", "07:00", ["Mon"], true⟩],
       ⟨false, "127.0.0.1", 8080, none⟩, ⟨"default"⟩⟩, none⟩
     ⟨"New", "08:30", [], true⟩ 0 (by decide) (by decide)).1.1⟩

/-! ## Claim C8 -/

/-- C8, counterexample: a POST of an alarm with an empty `name` and a
valid time is not rejected — the handler validates only the time format,
so the alarm is appended (201) and the config is mutated. -/
theorem claim_C8_counterexample :
    (Routes.create_alarm
      ⟨⟨[], ⟨false, "127.0.0.1", 8080, none⟩, ⟨"default"⟩⟩, none⟩
      ⟨"", "07:00", [], true⟩ true).status = 201 ∧
    (Routes.create_alarm
      ⟨⟨[], ⟨false, "127.0.0.1", 8080, none⟩, ⟨"default"⟩⟩, none⟩
      ⟨"", "07:00", [], true⟩ true).state.config.alarms =
      [⟨"", "07:00", [], true⟩] := by
  decide

/-- C8, amended: the create and update handlers validate only the time
format; an alarm whose `name` is empty but whose time is valid is accepted
— create appends it and update (at a valid index) stores it, mutating the
Config. -/
theorem claim_C8_amended (s : AppState) (a : Alarm) (i : Nat)
    (saveOk : Bool) (hname : a.name = "")
    (hok : a.parse_time.isOk = true)
    (hi : i < s.config.alarms.length) :
    Routes.create_alarm s a saveOk =
      ⟨s.add_alarm a, if saveOk then 201 else 500, true⟩ ∧
    (s.add_alarm a).config.alarms = s.config.alarms ++ [a] ∧
    (∃ s2 : AppState, s.update_alarm i a = .ok s2 ∧
      s2.config.alarms = s.config.alarms.set i a ∧
      Routes.update_alarm s i a saveOk =
        ⟨s2, if saveOk then 200 else 500, true⟩) := by
  obtain ⟨q, hq⟩ : ∃ q, a.parse_time = .ok q := by
    cases hp : a.parse_time with
    | ok q => exact ⟨q, rfl⟩
    | error e => rw [hp] at hok; cases hok
  refine ⟨?_, rfl, { s with config :=
      { s.config with alarms := s.config.alarms.set i a } }, ?_, rfl, ?_⟩
  · cases saveOk <;> simp [Routes.create_alarm, hq]
  · simp [AppState.update_alarm, Nat.not_le.mpr hi]
  · cases saveOk <;>
      simp [Routes.update_alarm, hq, AppState.update_alarm,
        Nat.not_le.mpr hi]

/-- C8 amended witness: the empty-named alarm accepted at a concrete
config. -/
theorem claim_C8_amended_witness :
    (⟨"", "07:00", [], true⟩ : Alarm).name = "" ∧
    (Alarm.parse_time ⟨"", "07:00", [], true⟩).isOk = true ∧
    (0 : Nat) <
      (⟨⟨[⟨"Wake", "07:00", ["Mon"], true⟩],
         ⟨false, "127.0.0.1", 8080, none⟩, ⟨"default"⟩⟩, none⟩ :
        AppState).config.alarms.length ∧
    Routes.create_alarm
      ⟨⟨[⟨"Wake", "07:00", ["Mon"], true⟩],
        ⟨false, "127.0.0.1", 8080, none⟩, ⟨"default"⟩⟩, none⟩
      ⟨"", "07:00", [], true⟩ true =
      ⟨AppState.add_alarm
        ⟨⟨[⟨"Wake", "07:00", ["Mon"], true⟩],
          ⟨false, "127.0.0.1", 8080, none⟩, ⟨"default"⟩⟩, none⟩
        ⟨"", "07:00", [], true⟩, if true then 201 else 500, true⟩ :=
  ⟨rfl, by decide, by decide,
   (claim_C8_amended ⟨⟨[⟨"Wake", "07:00", ["Mon"], true⟩],
       ⟨false, "127.0.0.1", 8080, none⟩, ⟨"default"⟩⟩, none⟩
     ⟨"", "07:00", [], true⟩ 0 true rfl (by decide) (by decide)).1⟩

end SpotifyAlarm
